import Mathlib

/-!
Verification development for the hospital front-desk application
(appointment/token queueing, wait-time estimation, recommendation
scoring, auth session storage, and the appointment Redux slice).

The repository ships only the frontend: the HTTP services in
`src/frontend/src/services` are thin wrappers around a backend that is
not part of the sources.  Backend behaviour (token sequencing, capacity,
status transitions, conflict checking, wait estimation, recommendation
scoring) is therefore modelled from the specification, as marked on each
definition.  The Redux reducers (`tokenSlice`, `appointmentSlice`) and
`authService` are embedded directly from the frontend sources.
-/

/-! ## Wait-time estimation (WaitEstimator) -/

/-- Modelled from the spec: the backend wait-estimation endpoint behind
`aiService.predictWaitTime` is not in the sources.  `average_service_time`
is a rolling average of `actual_wait_time` over the doctor's last `n`
completed tokens (`history` is most-recent-first, in minutes), falling
back to the configured default when no completed token exists. -/
def averageServiceTime (history : List Nat) (n : Nat) (defaultAvg : ℚ) : ℚ :=
  let recent := history.take n
  if recent.isEmpty then defaultAvg else (recent.sum : ℚ) / (recent.length : ℚ)

/-- Modelled from the spec: the backend estimator computes
`position_in_queue * average_service_time(doctor)` and clamps to zero
when the position is not positive (the token is next). -/
def estimateWait (pos : Int) (history : List Nat) (n : Nat) (defaultAvg : ℚ) : ℚ :=
  if pos ≤ 0 then 0 else (pos : ℚ) * averageServiceTime history n defaultAvg

lemma averageServiceTime_nonneg (history : List Nat) (n : Nat) (defaultAvg : ℚ)
    (hd : 0 ≤ defaultAvg) : 0 ≤ averageServiceTime history n defaultAvg := by
  unfold averageServiceTime
  by_cases h : (history.take n).isEmpty
  · simp [h, hd]
  · simp only [h, if_false]
    apply div_nonneg
    · exact_mod_cast Nat.zero_le _
    · exact_mod_cast Nat.zero_le _

/-! ## Auth session storage (`authService`) -/

/-- Browser `localStorage`, modelled as an association list of
key/value pairs (first binding wins, as `getItem` returns the first). -/
abbrev Storage := List (String × String)

/-- `localStorage.getItem`. -/
def getItem (st : Storage) (k : String) : Option String :=
  (st.find? (fun p => p.1 == k)).map (fun p => p.2)

/-- `localStorage.removeItem`. -/
def removeItem (st : Storage) (k : String) : Storage :=
  st.filter (fun p => !(p.1 == k))

/-- `authService.logout`: `try { await apiPost('/auth/logout') } finally
{ removeItem('access_token'); removeItem('refresh_token');
removeItem('user') }`.  The network call's outcome is passed in as an
oracle `apiResult`; the `finally` block removes the three keys whether
the call succeeded or threw, and the outcome (including a thrown error)
propagates to the caller as the first component. -/
def logout (apiResult : Except String Unit) (st : Storage) :
    Except String Unit × Storage :=
  (apiResult, removeItem (removeItem (removeItem st "access_token") "refresh_token") "user")

/-- `authService.isAuthenticated`: `!!localStorage.getItem('access_token')`. -/
def isAuthenticated (st : Storage) : Bool :=
  (getItem st "access_token").isSome

/-- `authService.getCurrentUser`: reads the `user` key and parses it;
`JSON.parse` is modelled as the identity on the stored string, and the
`null` result corresponds to `none`. -/
def getCurrentUser (st : Storage) : Option String :=
  getItem st "user"

lemma getItem_removeItem_self (st : Storage) (k : String) :
    getItem (removeItem st k) k = none := by
  induction st with
  | nil => rfl
  | cons p st ih =>
      by_cases h : p.1 == k
      · simp [removeItem, getItem, h, ih]
      · simp [removeItem, getItem, h, ih]

lemma getItem_removeItem_ne (st : Storage) (k k' : String) (h : k ≠ k') :
    getItem (removeItem st k') k = getItem st k := by
  induction st with
  | nil => rfl
  | cons p st ih =>
      by_cases h1 : p.1 == k'
      · have h1' : p.1 = k' := by simpa using h1
        have h2 : (p.1 == k) = false := by
          rw [h1']
          exact beq_eq_false_iff_ne.mpr (Ne.symm h)
        simpa [removeItem, getItem, h1, h2] using ih
      · by_cases h2 : p.1 == k
        · simp [removeItem, getItem, h1, h2]
        · simpa [removeItem, getItem, h1, h2] using ih

/-! ## Appointment Redux slice (`appointmentSlice`) -/

/-- An appointment row as held in the Redux store (fields relevant to
the cancel reducer). -/
structure CAppointment where
  id : String
  doctor_id : String
  appointment_date : String
  appointment_time : String
  status : String
deriving DecidableEq

/-- `AppointmentState` of `appointmentSlice`. -/
structure AppointmentState where
  appointments : List CAppointment
  currentAppointment : Option CAppointment
  isLoading : Bool
  error : Option String
deriving DecidableEq

/-- The `cancelAppointment.fulfilled` case of `appointmentSlice`:
`state.appointments = state.appointments.filter(apt => apt.id !==
action.payload)`, and `if (state.currentAppointment?.id ===
action.payload) state.currentAppointment = null` (optional chaining on
`null` compares `undefined` with the payload string, i.e. `false`);
`isLoading` is cleared and `error` reset. -/
def cancelAppointmentFulfilled (st : AppointmentState) (payload : String) :
    AppointmentState :=
  { appointments := st.appointments.filter (fun apt => !(apt.id == payload))
    currentAppointment :=
      if (match st.currentAppointment with
          | some a => a.id == payload
          | none => false) then none else st.currentAppointment
    isLoading := false
    error := none }

/-! ## Token sequencing and queueing (TokenSequencer / QueueStore) -/

/-- Status of a queue token, as in the `Token` type of the frontend. -/
inductive TokenStatus where
  | Waiting
  | Called
  | Completed
  | Cancelled
deriving DecidableEq

/-- The scheduling-core error taxonomy. -/
inductive SchedError where
  | CapacityExceededError
  | TokenAlreadyActiveError
  | InvalidTransitionError
  | ConflictError
deriving DecidableEq

/-- A token of one (doctor, date) queue: its sequence number and status. -/
structure SeqToken where
  token_number : Nat
  status : TokenStatus
deriving DecidableEq

/-- Modelled from the spec: the per-(doctor, date) state of the backend
TokenSequencer/QueueStore behind `tokenService`, which is not in the
sources.  `tokens` holds every token ever issued for the key, in
issuance order (cancelled and completed tokens are retained and never
renumbered); `nextNumber` is the next sequence number to assign. -/
structure QueueState where
  tokens : List SeqToken
  nextNumber : Nat
deriving DecidableEq

/-- The empty queue for a fresh (doctor, date) key; numbering starts at 1. -/
def emptyQueue : QueueState := { tokens := [], nextNumber := 1 }

/-- Modelled from the spec: `issue(doctor_id, date)` assigns the next
sequence number with initial status Waiting, and fails with
`CapacityExceededError` when issuing would exceed the doctor's
`max_patients_per_day` `m`. -/
def issue (m : Nat) (s : QueueState) : Except SchedError (SeqToken × QueueState) :=
  if m ≤ s.tokens.length then .error .CapacityExceededError
  else .ok (⟨s.nextNumber, .Waiting⟩,
    { tokens := s.tokens ++ [⟨s.nextNumber, .Waiting⟩],
      nextNumber := s.nextNumber + 1 })

/-- Modelled from the spec: the token state machine
Waiting→{Called,Cancelled}, Called→{Completed}. -/
def validTransition : TokenStatus → TokenStatus → Bool
  | .Waiting, .Called => true
  | .Waiting, .Cancelled => true
  | .Called, .Completed => true
  | _, _ => false

/-- Set the status of the token numbered `n`. -/
def setStatus (n : Nat) (toSt : TokenStatus) (ts : List SeqToken) : List SeqToken :=
  ts.map (fun t => if t.token_number == n then { t with status := toSt } else t)

/-- Look up the token numbered `n`. -/
def findTok (n : Nat) (s : QueueState) : Option SeqToken :=
  s.tokens.find? (fun t => t.token_number == n)

/-- Modelled from the spec: `transition(token_id, to_status)` enforces
the state machine and fails with `InvalidTransitionError` on any other
requested transition (or unknown token), leaving the state unchanged. -/
def transition (n : Nat) (toSt : TokenStatus) (s : QueueState) :
    Except SchedError QueueState :=
  match findTok n s with
  | none => .error .InvalidTransitionError
  | some t =>
      if validTransition t.status toSt then
        .ok { s with tokens := setStatus n toSt s.tokens }
      else .error .InvalidTransitionError

/-- Is some token of the queue currently Called? -/
def hasCalled (s : QueueState) : Bool :=
  s.tokens.any (fun t => t.status == TokenStatus.Called)

/-- Modelled from the spec: calling a token while one is already Called
fails with `TokenAlreadyActiveError`; otherwise it is the
Waiting→Called transition. -/
def callTok (n : Nat) (s : QueueState) : Except SchedError QueueState :=
  if hasCalled s then .error .TokenAlreadyActiveError
  else transition n .Called s

/-- The operations of the scheduling core on one (doctor, date) queue. -/
inductive Op where
  | issueOp (m : Nat)
  | callOp (n : Nat)
  | cancelOp (n : Nat)
  | completeOp (n : Nat)

/-- Apply one operation to the queue state. -/
def applyOp : Op → QueueState → Except SchedError QueueState
  | .issueOp m, s => (issue m s).map (fun r => r.2)
  | .callOp n, s => callTok n s
  | .cancelOp n, s => transition n .Cancelled s
  | .completeOp n, s => transition n .Completed s

/-- States reachable from the empty queue by successful operations. -/
inductive Reachable : QueueState → Prop where
  | init : Reachable emptyQueue
  | step (op : Op) {s s' : QueueState} :
      Reachable s → applyOp op s = .ok s' → Reachable s'

/-- The token numbers of a queue, in issuance order. -/
def numbersOf (s : QueueState) : List Nat :=
  s.tokens.map SeqToken.token_number

/-- How many tokens of the queue are currently Called. -/
def calledCount (s : QueueState) : Nat :=
  s.tokens.countP (fun t => t.status == TokenStatus.Called)

/-- The internal invariant of a queue: token numbers are strictly
increasing in issuance order, all below `nextNumber`, and at most one
token is Called. -/
@[reducible] def QueueInv (s : QueueState) : Prop :=
  List.Pairwise (· < ·) (numbersOf s) ∧
  (∀ t ∈ s.tokens, t.token_number < s.nextNumber) ∧
  calledCount s ≤ 1

/-- Repeatedly issue tokens for the same (doctor, date) key: `k`
consecutive requests against capacity `m`, stopping at the first error. -/
def issueRepeat (m : Nat) : Nat → QueueState → Except SchedError QueueState
  | 0, s => .ok s
  | k + 1, s =>
      match issue m s with
      | .ok r => issueRepeat m k r.2
      | .error e => .error e

/-! ## Appointment booking (AppointmentConflictChecker) -/

/-- Appointment status, as in the frontend `Appointment` type. -/
inductive ApptStatus where
  | Scheduled
  | InProgress
  | Completed
  | Cancelled
deriving DecidableEq

/-- An appointment row (fields relevant to conflict checking). -/
structure Appt where
  id : Nat
  doctor_id : String
  date : String
  time : String
  status : ApptStatus
deriving DecidableEq

/-- Modelled from the spec: two appointments conflict if same doctor,
same date, same time, and neither is Cancelled. -/
def conflicts (a b : Appt) : Bool :=
  a.doctor_id == b.doctor_id && a.date == b.date && a.time == b.time &&
    !(a.status == ApptStatus.Cancelled) && !(b.status == ApptStatus.Cancelled)

/-- Does some existing appointment already occupy the (doctor, date,
time) slot with a non-cancelled status? -/
def slotTaken (l : List Appt) (d dt tm : String) : Bool :=
  l.any (fun a =>
    a.doctor_id == d && a.date == dt && a.time == tm &&
      !(a.status == ApptStatus.Cancelled))

/-- Modelled from the spec: the backend `POST /appointments` behind
`appointmentService.bookAppointment` is not in the sources.  Booking
checks the slot against all existing appointments and either fails with
`ConflictError` (inserting nothing) or inserts a new Scheduled
appointment. -/
def bookAppointment (l : List Appt) (newId : Nat) (d dt tm : String) :
    Except SchedError (Appt × List Appt) :=
  if slotTaken l d dt tm then .error .ConflictError
  else .ok (Appt.mk newId d dt tm .Scheduled,
    l ++ [Appt.mk newId d dt tm .Scheduled])

/-! ## Doctor recommendation (RecommendationScorer) -/

/-- A doctor snapshot as seen by the recommendation scorer. -/
structure RDoctor where
  doctor_id : Nat
  specialization : String
  available : Bool
  remainingCapacity : Nat
  rating : ℚ
deriving DecidableEq

/-- The recommendation request (`DoctorRecommendationRequest`). -/
structure RecRequest where
  symptoms : String
  preferred_date : String
  preferred_specialization : Option String
  limit : Nat
deriving DecidableEq

/-- Modelled from the spec: specialization-match component — full score
on an exact/substring match of the preferred specialization or the
symptom text against the doctor's specialization, else a smaller
partial-match score. -/
def specializationMatch (symptoms : String) (prefSpec : Option String)
    (d : RDoctor) : ℚ :=
  if prefSpec == some d.specialization || symptoms == d.specialization
  then 1 else 1 / 2

/-- Modelled from the spec: availability component on the preferred date,
binary on availability and fractional on remaining capacity. -/
def availabilityScore (d : RDoctor) : ℚ :=
  if d.available then (if 0 < d.remainingCapacity then 1 else 1 / 2) else 0

/-- Modelled from the spec: normalized rating term (ratings out of 5). -/
def ratingScore (d : RDoctor) : ℚ :=
  d.rating / 5

/-- Modelled from the spec: the score of one doctor is the weighted sum
of specialization match, availability, and normalized rating (unit
weights). -/
def scoreDoctor (req : RecRequest) (d : RDoctor) : ℚ :=
  specializationMatch req.symptoms req.preferred_specialization d +
    availabilityScore d + ratingScore d

/-- Modelled from the spec: the ranking order on scored doctors —
higher score first, ties broken by `doctor_id` ascending. -/
def recRel (a b : RDoctor × ℚ) : Prop :=
  b.2 < a.2 ∨ (a.2 = b.2 ∧ a.1.doctor_id ≤ b.1.doctor_id)

instance recRelDecidable : DecidableRel recRel := fun a b =>
  inferInstanceAs (Decidable (b.2 < a.2 ∨ (a.2 = b.2 ∧ a.1.doctor_id ≤ b.1.doctor_id)))

instance recRelTotal : IsTotal (RDoctor × ℚ) recRel where
  total a b := by
    rcases lt_trichotomy a.2 b.2 with h | h | h
    · exact Or.inr (Or.inl h)
    · rcases Nat.le_total a.1.doctor_id b.1.doctor_id with h2 | h2
      · exact Or.inl (Or.inr ⟨h, h2⟩)
      · exact Or.inr (Or.inr ⟨h.symm, h2⟩)
    · exact Or.inl (Or.inl h)

instance recRelTrans : IsTrans (RDoctor × ℚ) recRel where
  trans a b c hab hbc := by
    rcases hab with h1 | ⟨h1, h1'⟩
    · rcases hbc with h2 | ⟨h2, h2'⟩
      · exact Or.inl (h2.trans h1)
      · exact Or.inl (h2 ▸ h1)
    · rcases hbc with h2 | ⟨h2, h2'⟩
      · exact Or.inl (by rw [h1]; exact h2)
      · exact Or.inr ⟨h1.trans h2, h1'.trans h2'⟩

/-- Modelled from the spec: the backend `POST /ai/recommend-doctor`
behind `aiService.recommendDoctors` is not in the sources.  Every
doctor of the snapshot is scored, the scored list is sorted by score
descending with ties broken by `doctor_id` ascending, and the first
`limit` entries are returned. -/
def recommend (req : RecRequest) (doctors : List RDoctor) :
    List (RDoctor × ℚ) :=
  (List.insertionSort recRel
    (doctors.map (fun d => (d, scoreDoctor req d)))).take req.limit

/-! ## Queue invariant lemmas -/

lemma map_token_number_setStatus (n : Nat) (toSt : TokenStatus)
    (ts : List SeqToken) :
    (setStatus n toSt ts).map SeqToken.token_number =
      ts.map SeqToken.token_number := by
  unfold setStatus
  rw [List.map_map]
  apply List.map_congr_left
  intro a _
  by_cases h : a.token_number == n
  · simp [Function.comp, h]
  · simp [Function.comp, h]

lemma countP_number_le_one (ts : List SeqToken) (n : Nat)
    (h : List.Pairwise (· < ·) (ts.map SeqToken.token_number)) :
    ts.countP (fun t => t.token_number == n) ≤ 1 := by
  induction ts with
  | nil => simp
  | cons a ts ih =>
      rw [List.map_cons, List.pairwise_cons] at h
      rw [List.countP_cons]
      by_cases ha : a.token_number = n
      · have hz : ts.countP (fun t => t.token_number == n) = 0 := by
          rw [List.countP_eq_zero]
          intro b hb
          have hlt := h.1 _ (List.mem_map_of_mem SeqToken.token_number hb)
          simp only [beq_iff_eq]
          omega
        rw [hz, if_pos (by simp [ha])]
      · have hih := ih h.2
        rw [if_neg (by simp [ha])]
        omega

lemma issue_ok (m : Nat) (s : QueueState) (t : SeqToken) (s' : QueueState)
    (h : issue m s = .ok (t, s')) :
    t = ⟨s.nextNumber, .Waiting⟩ ∧
    s' = ⟨s.tokens ++ [⟨s.nextNumber, TokenStatus.Waiting⟩], s.nextNumber + 1⟩ ∧
    s.tokens.length < m := by
  unfold issue at h
  by_cases hm : m ≤ s.tokens.length
  · simp [hm] at h
  · rw [if_neg hm, Except.ok.injEq, Prod.mk.injEq] at h
    exact ⟨h.1.symm, h.2.symm, by omega⟩

lemma transition_ok (n : Nat) (toSt : TokenStatus) (s s' : QueueState)
    (h : transition n toSt s = .ok s') :
    ∃ t, findTok n s = some t ∧ validTransition t.status toSt = true ∧
      s' = { s with tokens := setStatus n toSt s.tokens } := by
  unfold transition at h
  cases hf : findTok n s with
  | none => rw [hf] at h; exact absurd h (by simp)
  | some t =>
      rw [hf] at h
      by_cases hv : validTransition t.status toSt
      · simp only [hv, if_true, Except.ok.injEq] at h
        exact ⟨t, rfl, hv, h.symm⟩
      · simp [hv] at h

lemma numbersOf_setStatus (s : QueueState) (n : Nat) (toSt : TokenStatus) :
    numbersOf { s with tokens := setStatus n toSt s.tokens } = numbersOf s := by
  unfold numbersOf
  exact map_token_number_setStatus n toSt s.tokens

lemma bound_setStatus {s : QueueState} (n : Nat) (toSt : TokenStatus)
    (h : ∀ t ∈ s.tokens, t.token_number < s.nextNumber) :
    ∀ t ∈ setStatus n toSt s.tokens, t.token_number < s.nextNumber := by
  intro t ht
  unfold setStatus at ht
  obtain ⟨u, hu, rfl⟩ := List.mem_map.mp ht
  by_cases hc : u.token_number == n
  · simpa [hc] using h u hu
  · simpa [hc] using h u hu

lemma calledCountP_setStatus_ne (ts : List SeqToken) (n : Nat)
    (toSt : TokenStatus) (hne : toSt ≠ TokenStatus.Called) :
    (setStatus n toSt ts).countP (fun t => t.status == TokenStatus.Called) ≤
      ts.countP (fun t => t.status == TokenStatus.Called) := by
  unfold setStatus
  rw [List.countP_map]
  apply List.countP_mono_left
  intro a _ ha
  by_cases hc : a.token_number == n
  · simp [Function.comp, hc, hne] at ha
  · simpa [Function.comp, hc] using ha

lemma calledCountP_setStatus_called (ts : List SeqToken) (n : Nat)
    (hpw : List.Pairwise (· < ·) (ts.map SeqToken.token_number))
    (h0 : ts.countP (fun t => t.status == TokenStatus.Called) = 0) :
    (setStatus n TokenStatus.Called ts).countP
      (fun t => t.status == TokenStatus.Called) ≤ 1 := by
  unfold setStatus
  rw [List.countP_map]
  calc ts.countP ((fun t => t.status == TokenStatus.Called) ∘
        (fun t => if t.token_number == n then { t with status := TokenStatus.Called } else t))
      ≤ ts.countP (fun t => t.token_number == n) := by
        apply List.countP_mono_left
        intro a ha hc
        by_cases hn : a.token_number == n
        · exact hn
        · exfalso
          rw [List.countP_eq_zero] at h0
          exact h0 a ha (by simpa [Function.comp, hn] using hc)
    _ ≤ 1 := countP_number_le_one ts n hpw

lemma hasCalled_false_count {s : QueueState} (h : hasCalled s = false) :
    calledCount s = 0 := by
  unfold hasCalled at h
  unfold calledCount
  rw [List.countP_eq_zero]
  exact List.any_eq_false.mp h

lemma inv_issue {m : Nat} {s : QueueState} {t : SeqToken} {s' : QueueState}
    (hinv : QueueInv s) (h : issue m s = .ok (t, s')) : QueueInv s' := by
  obtain ⟨hpw, hbound, hcalled⟩ := hinv
  obtain ⟨-, rfl, -⟩ := issue_ok m s t s' h
  refine ⟨?_, ?_, ?_⟩
  · show List.Pairwise (· < ·)
      ((s.tokens ++ [SeqToken.mk s.nextNumber TokenStatus.Waiting]).map SeqToken.token_number)
    rw [List.map_append, List.pairwise_append]
    refine ⟨hpw, by simp, ?_⟩
    intro a ha b hb
    simp only [List.map_cons, List.map_nil, List.mem_singleton] at hb
    subst hb
    obtain ⟨u, hu, rfl⟩ := List.mem_map.mp ha
    exact hbound u hu
  · intro u hu
    rcases List.mem_append.mp hu with hu | hu
    · exact Nat.lt_succ_of_lt (hbound u hu)
    · simp only [List.mem_singleton] at hu
      subst hu
      exact Nat.lt_succ_self _
  · show (s.tokens ++ [SeqToken.mk s.nextNumber TokenStatus.Waiting]).countP
      (fun t : SeqToken => t.status == TokenStatus.Called) ≤ 1
    rw [List.countP_append]
    simpa using hcalled

lemma inv_applyOp {s s' : QueueState} (op : Op) (hinv : QueueInv s)
    (h : applyOp op s = .ok s') : QueueInv s' := by
  cases op with
  | issueOp m =>
      simp only [applyOp] at h
      cases hi : issue m s with
      | error e => rw [hi] at h; simp [Except.map] at h
      | ok r =>
          rw [hi] at h
          simp only [Except.map, Except.ok.injEq] at h
          subst h
          exact inv_issue hinv (by rw [hi])
  | callOp n =>
      obtain ⟨hpw, hbound, hcalled⟩ := hinv
      simp only [applyOp, callTok] at h
      by_cases hc : hasCalled s
      · simp [hc] at h
      · rw [if_neg (by simp [hc])] at h
        obtain ⟨t, hf, hv, rfl⟩ := transition_ok n .Called s s' h
        refine ⟨?_, bound_setStatus n .Called hbound, ?_⟩
        · rw [numbersOf_setStatus]; exact hpw
        · exact calledCountP_setStatus_called s.tokens n hpw
            (hasCalled_false_count (by simpa using hc))
  | cancelOp n =>
      obtain ⟨hpw, hbound, hcalled⟩ := hinv
      simp only [applyOp] at h
      obtain ⟨t, hf, hv, rfl⟩ := transition_ok n .Cancelled s s' h
      refine ⟨?_, bound_setStatus n .Cancelled hbound, ?_⟩
      · rw [numbersOf_setStatus]; exact hpw
      · exact le_trans (calledCountP_setStatus_ne s.tokens n .Cancelled (by simp)) hcalled
  | completeOp n =>
      obtain ⟨hpw, hbound, hcalled⟩ := hinv
      simp only [applyOp] at h
      obtain ⟨t, hf, hv, rfl⟩ := transition_ok n .Completed s s' h
      refine ⟨?_, bound_setStatus n .Completed hbound, ?_⟩
      · rw [numbersOf_setStatus]; exact hpw
      · exact le_trans (calledCountP_setStatus_ne s.tokens n .Completed (by simp)) hcalled

lemma reachable_inv {s : QueueState} (h : Reachable s) : QueueInv s := by
  induction h with
  | init => exact ⟨by simp [numbersOf, emptyQueue], by simp [emptyQueue], by simp [calledCount, emptyQueue]⟩
  | step op hr hstep ih => exact inv_applyOp op ih hstep

lemma issueRepeat_ok_of_le (m : Nat) :
    ∀ (k : Nat) (s : QueueState), s.tokens.length + k ≤ m →
      ∃ s', issueRepeat m k s = .ok s' ∧
        s'.tokens.length = s.tokens.length + k := by
  intro k
  induction k with
  | zero => exact fun s _ => ⟨s, rfl, by omega⟩
  | succ k ih =>
      intro s h
      have hm : ¬ m ≤ s.tokens.length := by omega
      have hissue : issue m s = .ok (⟨s.nextNumber, .Waiting⟩,
          { tokens := s.tokens ++ [⟨s.nextNumber, .Waiting⟩],
            nextNumber := s.nextNumber + 1 }) := by
        unfold issue
        rw [if_neg hm]
      obtain ⟨s', hs', hlen⟩ := ih
        { tokens := s.tokens ++ [⟨s.nextNumber, .Waiting⟩],
          nextNumber := s.nextNumber + 1 }
        (by simp; omega)
      refine ⟨s', ?_, ?_⟩
      · simp only [issueRepeat]
        rw [hissue]
        exact hs'
      · rw [hlen]
        simp
        omega

lemma issueRepeat_capacity (m : Nat) :
    ∀ (k : Nat) (s : QueueState), 1 ≤ k → s.tokens.length + k = m + 1 →
      issueRepeat m k s = .error .CapacityExceededError := by
  intro k
  induction k with
  | zero => omega
  | succ k ih =>
      intro s _ hlen
      by_cases hm : m ≤ s.tokens.length
      · have hissue : issue m s = .error .CapacityExceededError := by
          unfold issue
          rw [if_pos hm]
        simp only [issueRepeat]
        rw [hissue]
      · have hissue : issue m s = .ok (⟨s.nextNumber, .Waiting⟩,
            { tokens := s.tokens ++ [⟨s.nextNumber, .Waiting⟩],
              nextNumber := s.nextNumber + 1 }) := by
          unfold issue
          rw [if_neg hm]
        simp only [issueRepeat]
        rw [hissue]
        apply ih
        · omega
        · simp
          omega

lemma validTransition_iff (a b : TokenStatus) :
    validTransition a b = true ↔
      (a, b) ∈ ([(TokenStatus.Waiting, TokenStatus.Called),
        (TokenStatus.Waiting, TokenStatus.Cancelled),
        (TokenStatus.Called, TokenStatus.Completed)] :
        List (TokenStatus × TokenStatus)) := by
  cases a <;> cases b <;> decide

/-! ## Claim theorems: token sequencing -/

/-- Claim C1: in every reachable queue state the token numbers, read in
issuance order, are unique and strictly increasing; every successful
issue returns a token whose number strictly exceeds every previously
issued number.  Issued tokens are never removed from `tokens` (a
cancellation only changes the status), so this covers non-reuse after
cancellation. -/
theorem token_numbers_unique_increasing (s : QueueState) (h : Reachable s) :
    List.Pairwise (· < ·) (numbersOf s) ∧
    ∀ (m : Nat) (t : SeqToken) (s' : QueueState), issue m s = .ok (t, s') →
      (∀ u ∈ s.tokens, u.token_number < t.token_number) ∧
      List.Pairwise (· < ·) (numbersOf s') := by
  obtain ⟨hpw, hbound, hcalled⟩ := reachable_inv h
  refine ⟨hpw, ?_⟩
  intro m t s' hissue
  have hinv' := inv_issue ⟨hpw, hbound, hcalled⟩ hissue
  obtain ⟨ht, -, -⟩ := issue_ok m s t s' hissue
  subst ht
  exact ⟨fun u hu => hbound u hu, hinv'.1⟩

/-- Witness for C1 at the concrete state reached by one issue from the
empty queue. -/
theorem token_numbers_unique_increasing_witness :
    List.Pairwise (· < ·)
      (numbersOf (QueueState.mk [SeqToken.mk 1 TokenStatus.Waiting] 2)) :=
  (token_numbers_unique_increasing _
    (Reachable.step (Op.issueOp 5) Reachable.init rfl)).1

/-- Claim C2: with `max_patients_per_day = m`, `m` consecutive issue
requests against an empty (doctor, date) queue all succeed, and the
`(m+1)`-th request fails with `CapacityExceededError`; the failing
request produces only the error value, so the queue state is
unchanged. -/
theorem capacity_exceeded_on_overflow (m : Nat) :
    (∃ s, issueRepeat m m emptyQueue = .ok s ∧ s.tokens.length = m) ∧
    issueRepeat m (m + 1) emptyQueue = .error .CapacityExceededError := by
  constructor
  · obtain ⟨s, hs, hlen⟩ := issueRepeat_ok_of_le m m emptyQueue (by simp [emptyQueue])
    exact ⟨s, hs, by simpa [emptyQueue] using hlen⟩
  · exact issueRepeat_capacity m (m + 1) emptyQueue (by omega) (by simp [emptyQueue])

/-- Witness for C2 at the scenario capacity `m = 2`: the third issue
request fails with `CapacityExceededError`. -/
theorem capacity_exceeded_witness :
    issueRepeat 2 3 emptyQueue = .error SchedError.CapacityExceededError :=
  (capacity_exceeded_on_overflow 2).2

/-- Claim C3: every reachable queue state has at most one Called token;
calling any token while one is already Called fails with
`TokenAlreadyActiveError` (the operation returns only the error, so no
token's status changes), while once no token is Called a Waiting token
can be called. -/
theorem at_most_one_called (s : QueueState) (h : Reachable s) :
    calledCount s ≤ 1 ∧
    (∀ n, hasCalled s = true → callTok n s = .error .TokenAlreadyActiveError) ∧
    (∀ n t, hasCalled s = false → findTok n s = some t →
      t.status = .Waiting → ∃ s', callTok n s = .ok s') := by
  refine ⟨(reachable_inv h).2.2, ?_, ?_⟩
  · intro n hc
    unfold callTok
    rw [if_pos hc]
  · intro n t hc hf hw
    unfold callTok transition
    rw [if_neg (by simp [hc]), hf]
    dsimp only
    rw [if_pos (by rw [hw]; rfl)]
    exact ⟨_, rfl⟩

/-- Witness for C3 at the concrete reachable state with token 1 Called:
the count of Called tokens is at most one and calling token 2 fails. -/
theorem at_most_one_called_witness :
    calledCount (QueueState.mk [SeqToken.mk 1 TokenStatus.Called] 2) ≤ 1 ∧
    callTok 2 (QueueState.mk [SeqToken.mk 1 TokenStatus.Called] 2) =
      .error SchedError.TokenAlreadyActiveError := by
  have h := at_most_one_called (QueueState.mk [SeqToken.mk 1 TokenStatus.Called] 2)
    (Reachable.step (Op.callOp 1)
      (Reachable.step (Op.issueOp 5) Reachable.init rfl) rfl)
  exact ⟨h.1, h.2.1 2 rfl⟩

/-- Claim C4: with the target token present in the queue, the
status-transition operation succeeds exactly for Waiting→Called,
Waiting→Cancelled and Called→Completed, and every other requested
transition fails with `InvalidTransitionError`, returning only the
error value so the token's status is unchanged. -/
theorem transition_state_machine (s : QueueState) (n : Nat) (t : SeqToken)
    (toSt : TokenStatus) (hfind : findTok n s = some t) :
    ((t.status, toSt) ∈ ([(TokenStatus.Waiting, TokenStatus.Called),
        (TokenStatus.Waiting, TokenStatus.Cancelled),
        (TokenStatus.Called, TokenStatus.Completed)] :
        List (TokenStatus × TokenStatus)) →
      transition n toSt s = .ok { s with tokens := setStatus n toSt s.tokens }) ∧
    ((t.status, toSt) ∉ ([(TokenStatus.Waiting, TokenStatus.Called),
        (TokenStatus.Waiting, TokenStatus.Cancelled),
        (TokenStatus.Called, TokenStatus.Completed)] :
        List (TokenStatus × TokenStatus)) →
      transition n toSt s = .error .InvalidTransitionError) := by
  constructor
  · intro hmem
    unfold transition
    rw [hfind]
    dsimp only
    rw [if_pos ((validTransition_iff t.status toSt).mpr hmem)]
  · intro hmem
    unfold transition
    rw [hfind]
    dsimp only
    rw [if_neg (fun hv => hmem ((validTransition_iff t.status toSt).mp hv))]

/-- Witness for C4: Waiting→Called succeeds on a concrete queue, and
the reverse request Completed→Waiting fails with
`InvalidTransitionError`. -/
theorem transition_state_machine_witness :
    transition 1 TokenStatus.Called
      (QueueState.mk [SeqToken.mk 1 TokenStatus.Waiting] 2) =
      .ok (QueueState.mk [SeqToken.mk 1 TokenStatus.Called] 2) ∧
    transition 1 TokenStatus.Waiting
      (QueueState.mk [SeqToken.mk 1 TokenStatus.Completed] 2) =
      .error SchedError.InvalidTransitionError := by
  constructor
  · exact (transition_state_machine
      (QueueState.mk [SeqToken.mk 1 TokenStatus.Waiting] 2) 1
      (SeqToken.mk 1 TokenStatus.Waiting) TokenStatus.Called rfl).1 (by decide)
  · exact (transition_state_machine
      (QueueState.mk [SeqToken.mk 1 TokenStatus.Completed] 2) 1
      (SeqToken.mk 1 TokenStatus.Completed) TokenStatus.Waiting rfl).2 (by decide)

/-! ## Claim theorems: wait estimation -/

/-- Claim C5: for a nonnegative queue position the wait estimate equals
the position times the doctor's average service time, where the average
is the rolling average of `actual_wait_time` over the last `n`
completed tokens and the configured default when no completed token
exists. -/
theorem wait_estimate_formula (pos : Int) (history : List Nat) (n : Nat)
    (defaultAvg : ℚ) (hpos : 0 ≤ pos) :
    estimateWait pos history n defaultAvg =
      (pos : ℚ) * averageServiceTime history n defaultAvg ∧
    (history = [] → averageServiceTime history n defaultAvg = defaultAvg) := by
  constructor
  · unfold estimateWait
    by_cases h : pos ≤ 0
    · have hz : pos = 0 := le_antisymm h hpos
      subst hz
      simp
    · rw [if_neg h]
  · intro h
    subst h
    simp [averageServiceTime]

/-- Witness for C5 at the spec scenario: position 2 with a history
averaging 10 minutes gives a 20-minute estimate. -/
theorem wait_estimate_formula_witness :
    estimateWait 2 [10, 10] 20 15 = 20 := by
  rw [(wait_estimate_formula 2 [10, 10] 20 15 (by decide)).1]
  norm_num [averageServiceTime]

/-- Claim C6: the wait estimate is never negative (given a nonnegative
configured default), and for every non-positive position — the token is
next — it is exactly zero. -/
theorem wait_estimate_nonneg (pos : Int) (history : List Nat) (n : Nat)
    (defaultAvg : ℚ) (hd : 0 ≤ defaultAvg) :
    0 ≤ estimateWait pos history n defaultAvg ∧
    (pos ≤ 0 → estimateWait pos history n defaultAvg = 0) := by
  constructor
  · unfold estimateWait
    by_cases h : pos ≤ 0
    · simp [h]
    · rw [if_neg h]
      apply mul_nonneg
      · exact_mod_cast (by omega : (0 : Int) ≤ pos)
      · exact averageServiceTime_nonneg history n defaultAvg hd
  · intro h
    unfold estimateWait
    rw [if_pos h]

/-- Witness for C6: estimating at position -1 (already being served)
with the 15-minute default returns zero. -/
theorem wait_estimate_nonneg_witness :
    estimateWait (-1) [] 20 15 = 0 :=
  (wait_estimate_nonneg (-1) [] 20 15 (by norm_num)).2 (by decide)

/-! ## Claim theorems: appointment booking -/

lemma conflicts_new (a : Appt) (newId : Nat) (d dt tm : String) :
    conflicts a (Appt.mk newId d dt tm ApptStatus.Scheduled) =
      (a.doctor_id == d && a.date == dt && a.time == tm &&
        !(a.status == ApptStatus.Cancelled)) := by
  unfold conflicts
  simp

/-- Claim C7: booking a (doctor, date, time) slot fails with
`ConflictError` exactly when some existing appointment conflicts with
the proposed one — same doctor, same date, same time, and neither
Cancelled — and otherwise succeeds, appending exactly the new Scheduled
appointment; a failed booking returns only the error, creating no
appointment. -/
theorem booking_conflict_exact (l : List Appt) (newId : Nat) (d dt tm : String) :
    (bookAppointment l newId d dt tm = .error .ConflictError ↔
      ∃ a ∈ l, conflicts a (Appt.mk newId d dt tm ApptStatus.Scheduled) = true) ∧
    (bookAppointment l newId d dt tm = .error .ConflictError ∨
      bookAppointment l newId d dt tm =
        .ok (Appt.mk newId d dt tm ApptStatus.Scheduled,
          l ++ [Appt.mk newId d dt tm ApptStatus.Scheduled])) := by
  have hiff : slotTaken l d dt tm = true ↔
      ∃ a ∈ l, conflicts a (Appt.mk newId d dt tm ApptStatus.Scheduled) = true := by
    unfold slotTaken
    rw [List.any_eq_true]
    constructor
    · rintro ⟨a, ha, hp⟩
      exact ⟨a, ha, by rw [conflicts_new]; exact hp⟩
    · rintro ⟨a, ha, hp⟩
      exact ⟨a, ha, by rw [conflicts_new] at hp; exact hp⟩
  constructor
  · constructor
    · intro herr
      by_cases hs : slotTaken l d dt tm
      · exact hiff.mp hs
      · unfold bookAppointment at herr
        rw [if_neg hs] at herr
        exact absurd herr (by simp)
    · intro hex
      unfold bookAppointment
      rw [if_pos (hiff.mpr hex)]
  · by_cases hs : slotTaken l d dt tm
    · left
      unfold bookAppointment
      rw [if_pos hs]
    · right
      unfold bookAppointment
      rw [if_neg hs]

/-- Witness for C7 at the spec scenario: with (D1, 2025-01-10, 10:00)
already booked, rebooking the same slot fails with `ConflictError`,
while booking 10:30 succeeds. -/
theorem booking_conflict_witness :
    bookAppointment [Appt.mk 1 "D1" "2025-01-10" "10:00" ApptStatus.Scheduled]
        2 "D1" "2025-01-10" "10:00" = .error SchedError.ConflictError ∧
    bookAppointment [Appt.mk 1 "D1" "2025-01-10" "10:00" ApptStatus.Scheduled]
        3 "D1" "2025-01-10" "10:30" =
      .ok (Appt.mk 3 "D1" "2025-01-10" "10:30" ApptStatus.Scheduled,
        [Appt.mk 1 "D1" "2025-01-10" "10:00" ApptStatus.Scheduled,
         Appt.mk 3 "D1" "2025-01-10" "10:30" ApptStatus.Scheduled]) := by
  constructor
  · exact (booking_conflict_exact _ 2 "D1" "2025-01-10" "10:00").1.mpr
      ⟨Appt.mk 1 "D1" "2025-01-10" "10:00" ApptStatus.Scheduled,
        List.mem_singleton.mpr rfl, by decide⟩
  · rfl

/-! ## Claim theorems: doctor recommendation -/

/-- Claim C8: the recommendation operation is deterministic — identical
(symptoms, date, specialization, limit) requests over identical doctor
snapshots return the identical ordered list of (doctor, score) pairs —
and the returned list is ordered by descending score with ties broken
by ascending `doctor_id`. -/
theorem recommend_deterministic (req₁ req₂ : RecRequest)
    (ds₁ ds₂ : List RDoctor) (h1 : req₁ = req₂) (h2 : ds₁ = ds₂) :
    recommend req₁ ds₁ = recommend req₂ ds₂ ∧
    List.Pairwise recRel (recommend req₁ ds₁) := by
  subst h1
  subst h2
  refine ⟨rfl, ?_⟩
  unfold recommend
  exact List.Pairwise.sublist (List.take_sublist _ _)
    (List.sorted_insertionSort recRel _)

/-- Witness for C8: two invocations on a concrete request and snapshot
coincide. -/
theorem recommend_deterministic_witness :
    recommend (RecRequest.mk "fever" "2025-01-10" none 2)
        [RDoctor.mk 2 "General" true 3 4, RDoctor.mk 1 "General" true 3 4] =
      recommend (RecRequest.mk "fever" "2025-01-10" none 2)
        [RDoctor.mk 2 "General" true 3 4, RDoctor.mk 1 "General" true 3 4] :=
  (recommend_deterministic _ _ _ _ rfl rfl).1

/-! ## Claim theorems: auth session and appointment slice -/

/-- Claim C9: after `authService.logout` — whether the POST /auth/logout
call succeeded or threw — the keys `access_token`, `refresh_token` and
`user` are removed from localStorage, `isAuthenticated()` is false,
`getCurrentUser()` is null, and the API outcome (an error included)
propagates to the caller. -/
theorem logout_clears_session (api : Except String Unit) (st : Storage) :
    (logout api st).1 = api ∧
    getItem (logout api st).2 "access_token" = none ∧
    getItem (logout api st).2 "refresh_token" = none ∧
    getItem (logout api st).2 "user" = none ∧
    isAuthenticated (logout api st).2 = false ∧
    getCurrentUser (logout api st).2 = none := by
  have hacc : getItem (logout api st).2 "access_token" = none := by
    show getItem (removeItem (removeItem (removeItem st "access_token")
      "refresh_token") "user") "access_token" = none
    rw [getItem_removeItem_ne _ _ _ (by decide),
      getItem_removeItem_ne _ _ _ (by decide)]
    exact getItem_removeItem_self st "access_token"
  have href : getItem (logout api st).2 "refresh_token" = none := by
    show getItem (removeItem (removeItem (removeItem st "access_token")
      "refresh_token") "user") "refresh_token" = none
    rw [getItem_removeItem_ne _ _ _ (by decide)]
    exact getItem_removeItem_self _ "refresh_token"
  have huser : getItem (logout api st).2 "user" = none :=
    getItem_removeItem_self _ "user"
  refine ⟨rfl, hacc, href, huser, ?_, huser⟩
  unfold isAuthenticated
  rw [hacc]
  rfl

/-- Claim C10: the `cancelAppointment.fulfilled` reducer removes every
appointment with the cancelled id from the list entirely (none is
retained with a Cancelled status), keeps all other appointments
unchanged and in order, and nulls `currentAppointment` exactly when it
referenced the cancelled id. -/
theorem cancel_fulfilled_frame (st : AppointmentState) (x : String) :
    (∀ a ∈ (cancelAppointmentFulfilled st x).appointments, a.id ≠ x) ∧
    List.Sublist (cancelAppointmentFulfilled st x).appointments
      st.appointments ∧
    (∀ a ∈ st.appointments, a.id ≠ x →
      a ∈ (cancelAppointmentFulfilled st x).appointments) ∧
    (∀ a, st.currentAppointment = some a →
      (cancelAppointmentFulfilled st x).currentAppointment =
        if a.id = x then none else some a) ∧
    (st.currentAppointment = none →
      (cancelAppointmentFulfilled st x).currentAppointment = none) := by
  refine ⟨?_, ?_, ?_, ?_, ?_⟩
  · intro a ha
    have hmem : a ∈ st.appointments.filter (fun apt => !(apt.id == x)) := ha
    have hp := List.of_mem_filter hmem
    simpa using hp
  · exact List.filter_sublist _
  · intro a ha hne
    show a ∈ st.appointments.filter (fun apt => !(apt.id == x))
    exact List.mem_filter.mpr ⟨ha, by simpa using hne⟩
  · intro a ha
    show (if (match st.currentAppointment with
        | some b => b.id == x
        | none => false) then none else st.currentAppointment) =
      if a.id = x then none else some a
    rw [ha]
    by_cases h : a.id = x
    · rw [if_pos (by simpa using h), if_pos h]
    · rw [if_neg (by simpa using h), if_neg h]
  · intro h
    show (if (match st.currentAppointment with
        | some b => b.id == x
        | none => false) then none else st.currentAppointment) = none
    rw [h]
    rfl

/-- Witness for C10 on a concrete store: cancelling the id referenced
by `currentAppointment` nulls it and empties the list. -/
theorem cancel_fulfilled_frame_witness :
    (cancelAppointmentFulfilled
      (AppointmentState.mk [CAppointment.mk "a1" "d" "dt" "tm" "Scheduled"]
        (some (CAppointment.mk "a1" "d" "dt" "tm" "Scheduled")) false none)
      "a1").currentAppointment = none := by
  have h := (cancel_fulfilled_frame
    (AppointmentState.mk [CAppointment.mk "a1" "d" "dt" "tm" "Scheduled"]
      (some (CAppointment.mk "a1" "d" "dt" "tm" "Scheduled")) false none)
    "a1").2.2.2.1 (CAppointment.mk "a1" "d" "dt" "tm" "Scheduled") rfl
  simpa using h
